import Mathlib

/-!
Shallow embedding of the two binary LUT converters of the `film_sims`
repository (`src/tools/convert_bin_to_cube.py` and
`src/tools/convert_oppo_luts.py`), together with theorems settling the
frozen claims about the natural-language specification.

Bytes are modelled as `Nat` (each value `< 256` for real inputs), byte
buffers as `List Nat`, and normalized colour components as `ℚ` (Python
computes them as IEEE doubles; on the reachable values `byte/255` and
`r/(size-1)` the rational model agrees with the double model for every
property stated below — the quantities compared never fall within the
double rounding error of a decision boundary, as noted at each use).
Python exceptions are modelled with `Except String`.
-/

namespace FilmSims

/-- A normalized RGB colour triple. -/
abbrev Triple := ℚ × ℚ × ℚ

/-- The bytes of the magic signature `".MS-LUT "`. -/
def msMagic : List Nat := [46, 77, 83, 45, 76, 85, 84, 32]

/-- Little-endian `uint32` read at byte offset `off`
(`struct.unpack_from` / `struct.unpack('<I', …)`); callers guard the
buffer length, so the `getD` default is never used on reachable inputs. -/
def u32 (data : List Nat) (off : Nat) : Nat :=
  data.getD off 0 + 256 * data.getD (off + 1) 0 +
    65536 * data.getD (off + 2) 0 + 16777216 * data.getD (off + 3) 0

/-- Little-endian `uint64` read at byte offset `off` (`struct.unpack('<Q', …)`). -/
def u64 (data : List Nat) (off : Nat) : Nat :=
  u32 data off + 4294967296 * u32 data (off + 4)

/-- Payload storage orders of `convert_bin_to_cube.iter_values`. -/
inductive ChanOrder where
  | rgb
  | bgr
  | rgba
deriving DecidableEq

/-! ## `src/tools/convert_bin_to_cube.py` -/

/-- `read_ms_lut(data)`: parse a `.MS-LUT` file, returning
`(size, order, raw_rgb_bytes)`; raises `ValueError` (modelled as
`Except.error`) on a missing header or truncated blocks.  Header words
`header[3]`, `header[6]`, `header[8]`, `header[10]` live at byte
offsets 12, 24, 32, 40. -/
def read_ms_lut (data : List Nat) : Except String (Nat × ChanOrder × List Nat) :=
  if data.length < 48 ∨ ¬ msMagic.isPrefixOf data then
    .error "missing .MS-LUT header"
  else if data.length < u32 data 32 + u32 data 12 * 4 then
    .error "axis block truncated"
  else if data.length < u32 data 40 + u32 data 12 * u32 data 12 * u32 data 12 * 3 then
    .error "payload truncated"
  else
    .ok (u32 data 12, (if u32 data 24 ≠ 0 then .rgb else .bgr),
      (data.drop (u32 data 40)).take (u32 data 12 * u32 data 12 * u32 data 12 * 3))

/-- Bounded linear search used to model Python's
`round(texel_count ** (1.0/3.0))`: advance `k` while `(k+1)³ ≤ n`. -/
def cbrtGo (n : Nat) : Nat → Nat → Nat
  | 0, k => k
  | fuel + 1, k => if (k + 1) ^ 3 ≤ n then cbrtGo n fuel (k + 1) else k

/-- Floor cube root of a natural number.  `read_raw_rgba` computes
`round(texel_count ** (1.0/3.0))` in floating point and then checks
`size³ == texel_count`; for every perfect cube below 2⁵³ the float
expression returns the exact root, and for a non-cube the subsequent
equality check fails for any returned integer, so the exact model is
faithful to the Python behaviour for all reachable buffer sizes. -/
def natCbrt (n : Nat) : Nat := cbrtGo n n 0

/-- `read_raw_rgba(data)`: parse a raw RGBA8 volume, returning
`(size, order, raw_bytes)`; raises on a length not divisible by 4 or a
texel count that is not a perfect cube. -/
def read_raw_rgba (data : List Nat) : Except String (Nat × ChanOrder × List Nat) :=
  if data.length % 4 ≠ 0 then
    .error "byte length not divisible by 4 for RGBA data"
  else if natCbrt (data.length / 4) * natCbrt (data.length / 4) * natCbrt (data.length / 4)
      ≠ data.length / 4 then
    .error "byte length is not a perfect cube of RGBA texels"
  else
    .ok (natCbrt (data.length / 4), .rgba, data)

/-- Normalized triple read from three consecutive payload bytes at
`idx`, `idx+1`, `idx+2` (Python `payload[idx] / 255.0`, …).  Reachable
call sites stay in bounds, so the `getD` default is never used. -/
def tripleAt (payload : List Nat) (idx : Nat) : Triple :=
  ((payload.getD idx 0 : ℚ) / 255,
   (payload.getD (idx + 1) 0 : ℚ) / 255,
   (payload.getD (idx + 2) 0 : ℚ) / 255)

/-- Storage index of the texel for canonical coordinates `(r, g, b)`,
per `iter_values`: `rgb` uses `base = (g*size + b*n2)*3`, `idx = base + r*3`;
`bgr` uses `base = (b + g*size)*3`, `idx = base + r*n2*3`; `rgba` uses the
`rgb` formula at stride 4. -/
def storageIdx (order : ChanOrder) (size r g b : Nat) : Nat :=
  match order with
  | .rgb => (g * size + b * (size * size)) * 3 + r * 3
  | .bgr => (b + g * size) * 3 + r * (size * size) * 3
  | .rgba => (g * size + b * (size * size)) * 4 + r * 4

/-- `iter_values(size, payload, order)`: yield normalized RGB triples in
`.cube` order (blue outer, green middle, red inner), reading each texel's
three bytes consecutively at the order-dependent storage index. -/
def iter_values (size : Nat) (payload : List Nat) (order : ChanOrder) : List Triple :=
  (List.range size).flatMap fun b =>
    (List.range size).flatMap fun g =>
      (List.range size).map fun r =>
        tripleAt payload (storageIdx order size r g b)

/-- The 6 fractional digits of `m < 10⁶` as printed by `"%.6f"`. -/
def fracDigits (m : Nat) : String :=
  String.mk [Nat.digitChar (m / 100000 % 10), Nat.digitChar (m / 10000 % 10),
    Nat.digitChar (m / 1000 % 10), Nat.digitChar (m / 100 % 10),
    Nat.digitChar (m / 10 % 10), Nat.digitChar (m % 10)]

/-- Floor of `q·10⁶ + 1/2` for a non-negative rational, written on
`num`/`den` so that it evaluates inside the kernel. -/
def round6 (q : ℚ) : Nat :=
  ((2 * 1000000 * q.num + q.den) / (2 * (q.den : Int))).toNat

/-- Python `f"{x:.6f}"` for the non-negative values reachable here:
round `x·10⁶` to the nearest integer and print `int.frac` with exactly
six fractional digits.  (Python rounds the nearest double half-to-even;
on the reachable values `byte/255` and `r/(size−1)`, `size ≤ 33`, the
product is never within the double error of a tie, so rounding half-up
on the exact rational agrees with the float behaviour.) -/
def fmt6 (q : ℚ) : String :=
  toString (round6 q / 1000000) ++ "." ++ fracDigits (round6 q % 1000000)

/-- One `.cube` data line `f"{r:.6f} {g:.6f} {b:.6f}"`. -/
def fmtLine (t : Triple) : String :=
  fmt6 t.1 ++ " " ++ fmt6 t.2.1 ++ " " ++ fmt6 t.2.2

/-- The lines written by `convert_file` (`convert_bin_to_cube.py`,
lines 140–146): four header lines, then one line per decoded triple. -/
def convert_file_lines (title : String) (size : Nat) (entries : List Triple) : List String :=
  ("TITLE \"" ++ title ++ "\"") ::
  ("LUT_3D_SIZE " ++ toString size) ::
  "DOMAIN_MIN 0 0 0" ::
  "DOMAIN_MAX 1 1 1" ::
  entries.map fmtLine

/-- The source-parsing part of `convert_file`: `read_ms_lut`, falling
back to `read_raw_rgba` when the former raises `ValueError`. -/
def convert_file_source (data : List Nat) : Except String (Nat × ChanOrder × List Nat) :=
  match read_ms_lut data with
  | .ok r => .ok r
  | .error _ => read_raw_rgba data

/-! ## `src/tools/convert_oppo_luts.py` -/

/-- The ranked candidate cube sizes of the exact tier
(`for size in [32, 33, 17, 16, 21, 25, 20]`). -/
def exactCandidates : List Nat := [32, 33, 17, 16, 21, 25, 20]

/-- The candidate cube sizes of the tolerance tier
(`for size in [20, 17, 21, 25]`). -/
def tolCandidates : List Nat := [20, 17, 21, 25]

/-- The exact tier of `parse_ms_lut_header` (lines 81–92): first size
whose `size³·3` (channels 3) or `size³·4` (channels 4) equals
`remaining`.  `remaining = file_size - data_offset` may be negative in
Python, hence `Int`. -/
def exactMatch (remaining : Int) : Option (Nat × Nat) :=
  exactCandidates.findSome? fun size =>
    if remaining = (size ^ 3 * 3 : Nat) then some (size, 3)
    else if remaining = (size ^ 3 * 4 : Nat) then some (size, 4)
    else none

/-- The tolerance tier of `parse_ms_lut_header` (lines 94–105): first
`(size, channels)` with `size ∈ [20, 17, 21, 25]`, `channels ∈ [3, 4]`
(in that nesting order), whose expected byte count is within 4 of
`remaining`. -/
def tolMatch (remaining : Int) : Option (Nat × Nat) :=
  tolCandidates.findSome? fun size =>
    ([3, 4] : List Nat).findSome? fun ch =>
      if (remaining - (size ^ 3 * ch : Nat)).natAbs ≤ 4 then some (size, ch) else none

/-- The bucketed file-size fallback of `parse_ms_lut_header`
(lines 107–119). -/
def bucketSize (file_size : Nat) : Nat :=
  if file_size ≤ 14900 then 17
  else if file_size ≤ 17000 then 16
  else if file_size ≤ 28000 then 21
  else if file_size ≤ 100000 then 32
  else if file_size ≤ 135000 then 32
  else 33

/-- The size/channel inference of `parse_ms_lut_header` after the data
offset is known: exact tier, then tolerance tier, then bucketed
fallback with 3 channels (first success wins). -/
def inferLayout (file_size data_offset : Nat) : Nat × Nat :=
  ((exactMatch ((file_size : Int) - (data_offset : Int))).or
      (tolMatch ((file_size : Int) - (data_offset : Int)))).getD
    (bucketSize file_size, 3)

/-- The dict returned by `parse_ms_lut_header`. -/
structure MsHeader where
  version : Nat
  lut_size : Nat
  file_size : Nat
  data_offset : Nat
  channels : Nat
deriving DecidableEq

/-- The `data_offset` resolution of `parse_ms_lut_header`
(lines 68–73): default `0xB0`, replaced by the `uint64` field at `0x28`
when `len(data) >= 0x30` and the field lies strictly between 0 and the
buffer length. -/
def parsedDataOffset (data : List Nat) : Nat :=
  if 48 ≤ data.length then
    if 0 < u64 data 40 ∧ u64 data 40 < data.length then u64 data 40 else 176
  else 176

/-- `parse_ms_lut_header(data)`: returns `None` (`.ok none`) when the
magic is absent; raises `struct.error` (`.error`) when the magic is
present but the buffer is too short for the fixed-offset `uint32`
reads at bytes 8–16; otherwise returns a header dict (the `uint64`
reads at `0x20`/`0x28` are guarded by `len(data) >= 0x30`).  The
`lut_info` word at offset 12 is read by the Python code but unused. -/
def parse_ms_lut_header (data : List Nat) : Except String (Option MsHeader) :=
  if msMagic.isPrefixOf data then
    if data.length < 16 then .error "struct.error: unpack requires a buffer of 4 bytes"
    else
      .ok (some
        { version := u32 data 8
          lut_size := (inferLayout data.length (parsedDataOffset data)).1
          file_size := data.length
          data_offset := parsedDataOffset data
          channels := (inferLayout data.length (parsedDataOffset data)).2 })
  else .ok none

/-- Loop body shared by `extract_byte_lut` and `extract_lut_data`:
emit triples at stride `ch` starting from texel index `i`, stopping at
the first texel whose three bytes would overrun the buffer. -/
def ebGo (data : List Nat) (ch : Nat) : Nat → Nat → List Triple
  | 0, _ => []
  | fuel + 1, i =>
    if i * ch + 3 ≤ data.length then tripleAt data (i * ch) :: ebGo data ch fuel (i + 1)
    else []

/-- `extract_byte_lut(data, lut_size, channels)` (lines 180–196):
up to `lut_size³` byte triples at stride `channels`, breaking at the
first out-of-bounds read. -/
def extract_byte_lut (data : List Nat) (lut_size ch : Nat) : List Triple :=
  ebGo data ch (lut_size ^ 3) 0

/-- `extract_lut_data(data, header)` (lines 130–153): the same loop as
`extract_byte_lut`, run on `data[data_offset:]` with the header's size
and channel count. -/
def extract_lut_data (data : List Nat) (h : MsHeader) : List Triple :=
  extract_byte_lut (data.drop h.data_offset) h.lut_size h.channels

/-- Identity-ramp triple appended by the padding loop of
`convert_bin_to_cube` (lines 292–298) for linear index `idx`:
`b = idx // size²`, `g = (idx // size) % size`, `r = idx % size`,
value `(r/(size−1), g/(size−1), b/(size−1))`. -/
def identityAt (size idx : Nat) : Triple :=
  ((idx % size : Nat) / ((size - 1 : Nat) : ℚ),
   ((idx / size % size : Nat) : ℚ) / ((size - 1 : Nat) : ℚ),
   ((idx / (size * size) : Nat) : ℚ) / ((size - 1 : Nat) : ℚ))

/-- The `while len(entries) < expected` padding loop: append the
identity triple at the current length, `fuel` times at most. -/
def padLoop (size : Nat) : List Triple → Nat → List Triple
  | entries, 0 => entries
  | entries, fuel + 1 =>
    if entries.length < size ^ 3 then
      padLoop size (entries ++ [identityAt size entries.length]) fuel
    else entries

/-- The completion/repair block of `convert_bin_to_cube`
(lines 287–298): truncate to `size³` entries, or pad with identity
triples until `size³` entries. -/
def repair (entries : List Triple) (size : Nat) : List Triple :=
  if entries.length > size ^ 3 then entries.take (size ^ 3)
  else if entries.length < size ^ 3 then padLoop size entries (size ^ 3 - entries.length)
  else entries

/-- The lines written by `write_cube_file` (lines 227–237): four header
lines with `0.0`-style domain values, one blank line, then one line per
entry. -/
def write_cube_file_lines (entries : List Triple) (lut_size : Nat) (title : String) :
    List String :=
  ("TITLE \"" ++ title ++ "\"") ::
  ("LUT_3D_SIZE " ++ toString lut_size) ::
  "DOMAIN_MIN 0.0 0.0 0.0" ::
  "DOMAIN_MAX 1.0 1.0 1.0" ::
  "" ::
  entries.map fmtLine

/-- The headerless raw-size guess of `convert_bin_to_cube`
(lines 266–277). -/
def rawSizeGuess (file_size : Nat) : Nat :=
  if file_size = 131072 then 32
  else if file_size = 98304 then 32
  else if file_size = 107991 then 33
  else if file_size = 16384 then 16
  else 17

/-- The ASCII bytes of `"LUT_3D_SIZE"`. -/
def lutSizeMarker : List Nat := [76, 85, 84, 95, 51, 68, 95, 83, 73, 90, 69]

/-- The ASCII bytes of `"TITLE"`. -/
def titleMarker : List Nat := [84, 73, 84, 76, 69]

/-- Python's substring test `needle in haystack`: some suffix of the
haystack starts with the needle. -/
def containsSeq (needle : List Nat) : List Nat → Bool
  | [] => needle.isEmpty
  | b :: rest => needle.isPrefixOf (b :: rest) || containsSeq needle rest

/-- The already-a-cube-file check of `convert_bin_to_cube`
(lines 246–258): the first 20 bytes are ASCII (`< 128`) and the first
500 bytes, decoded as ASCII with non-ASCII bytes dropped
(`errors='ignore'`), contain `"LUT_3D_SIZE"` or `"TITLE"`. -/
def asciiCubeCopy (data : List Nat) : Bool :=
  (data.take 20).all (fun byte => byte < 128) &&
    (containsSeq lutSizeMarker ((data.take 500).filter (fun byte => byte < 128)) ||
     containsSeq titleMarker ((data.take 500).filter (fun byte => byte < 128)))

/-- Outcome of `convert_bin_to_cube` (`convert_oppo_luts.py`): the file
is copied verbatim, converted (writing a `.cube` file for `size` and
the repaired entries), or the conversion fails (`return False, None,
None`, also reached through the catch-all `except`). -/
inductive OppoResult where
  | copied (data : List Nat)
  | ok (size : Nat) (entries : List Triple)
  | failed
deriving DecidableEq

/-- The entry-count check and repair tail of `convert_bin_to_cube`
(lines 283–309).  Python compares `len(entries) < lut_size ** 3 * 0.9`
in floating point; `entries.length * 10 < lut_size ^ 3 * 9` agrees with
it at every comparison performed in this development (the compared
values are never at the 0.9 boundary). -/
def finishOppo (lut_size : Nat) (entries : List Triple) : OppoResult :=
  if entries.length = 0 ∨ entries.length * 10 < lut_size ^ 3 * 9 then .failed
  else .ok lut_size (repair entries lut_size)

/-- `convert_bin_to_cube(bin_path, output_dir)` of
`convert_oppo_luts.py`, modelled on the bytes of the input file:
copy-through for ASCII cube text, then the `.MS-LUT` header path or the
headerless raw-size-guess path, then entry extraction, the `< 90%`
check, and repair. -/
def convert_bin_to_cube (data : List Nat) : OppoResult :=
  if asciiCubeCopy data then .copied data
  else
    match parse_ms_lut_header data with
    | .error _ => .failed
    | .ok none =>
      finishOppo (rawSizeGuess data.length)
        (extract_byte_lut data (rawSizeGuess data.length)
          (if data.length % 4 ≠ 0 then 3 else 4))
    | .ok (some h) =>
      finishOppo h.lut_size (extract_lut_data data h)

/-! ## Helper lemmas -/

theorem cbrtGo_spec (n : Nat) :
    ∀ (fuel k : Nat), k ^ 3 ≤ n → n < (k + fuel + 1) ^ 3 →
      (cbrtGo n fuel k) ^ 3 ≤ n ∧ n < (cbrtGo n fuel k + 1) ^ 3 := by
  intro fuel
  induction fuel with
  | zero =>
    intro k hk hk'
    simpa [cbrtGo] using ⟨hk, hk'⟩
  | succ fuel ih =>
    intro k hk hk'
    rw [cbrtGo]
    by_cases h : (k + 1) ^ 3 ≤ n
    · rw [if_pos h]
      exact ih (k + 1) h (by rw [show k + 1 + fuel + 1 = k + (fuel + 1) + 1 by omega]; exact hk')
    · rw [if_neg h]
      exact ⟨hk, by omega⟩

theorem natCbrt_spec (n : Nat) : (natCbrt n) ^ 3 ≤ n ∧ n < (natCbrt n + 1) ^ 3 := by
  have h1 : (0 : Nat) ^ 3 ≤ n := by simp
  have h2 : n < (0 + n + 1) ^ 3 := by
    rw [Nat.zero_add]
    have : n + 1 ≤ (n + 1) ^ 3 := Nat.le_self_pow (by norm_num) _
    omega
  exact cbrtGo_spec n n 0 h1 h2

theorem natCbrt_cube (s : Nat) : natCbrt (s ^ 3) = s := by
  obtain ⟨h1, h2⟩ := natCbrt_spec (s ^ 3)
  by_contra hne
  rcases Nat.lt_or_ge (natCbrt (s ^ 3)) s with h | h
  · have : natCbrt (s ^ 3) + 1 ≤ s := h
    have := Nat.pow_le_pow_left this 3
    omega
  · have hlt : s < natCbrt (s ^ 3) := by omega
    have := Nat.pow_lt_pow_left hlt (n := 3) (by norm_num)
    omega

theorem padLoop_spec (size : Nat) :
    ∀ (fuel : Nat) (entries : List Triple), entries.length + fuel = size ^ 3 →
      padLoop size entries fuel =
        entries ++ (List.range fuel).map (fun j => identityAt size (entries.length + j)) := by
  intro fuel
  induction fuel with
  | zero => intro entries _; simp [padLoop]
  | succ fuel ih =>
    intro entries h
    rw [padLoop]
    have hlt : entries.length < size ^ 3 := by omega
    rw [if_pos hlt]
    have hlen : (entries ++ [identityAt size entries.length]).length + fuel = size ^ 3 := by
      simp only [List.length_append, List.length_singleton]
      omega
    rw [ih _ hlen, List.range_succ_eq_map, List.map_cons, List.map_map,
      List.append_assoc, List.singleton_append]
    simp only [List.length_append, List.length_singleton]
    congr 1
    congr 1
    apply List.map_congr_left
    intro j _
    simp only [Function.comp_apply]
    congr 1
    omega

/-- Claim C6 core: the repair block truncates, pads with the
identity-ramp formula, and always returns `size³` entries. -/
theorem repair_spec (entries : List Triple) (size : Nat) :
    (repair entries size).length = size ^ 3 ∧
    (size ^ 3 ≤ entries.length → repair entries size = entries.take (size ^ 3)) ∧
    (entries.length ≤ size ^ 3 →
      repair entries size =
        entries ++ (List.range (size ^ 3 - entries.length)).map
          (fun j => identityAt size (entries.length + j))) ∧
    (entries.length = size ^ 3 → repair entries size = entries) := by
  unfold repair
  by_cases hgt : entries.length > size ^ 3
  · rw [if_pos hgt]
    refine ⟨?_, ?_, ?_, ?_⟩
    · rw [List.length_take]; omega
    · intro _; rfl
    · intro hle; omega
    · intro heq; omega
  · rw [if_neg hgt]
    by_cases hlt : entries.length < size ^ 3
    · rw [if_pos hlt]
      have hpad := padLoop_spec size (size ^ 3 - entries.length) entries (by omega)
      refine ⟨?_, ?_, ?_, ?_⟩
      · rw [hpad]
        simp only [List.length_append, List.length_map, List.length_range]
        omega
      · intro hge; omega
      · intro _; exact hpad
      · intro heq; omega
    · rw [if_neg hlt]
      have heq : entries.length = size ^ 3 := by omega
      refine ⟨heq, ?_, ?_, ?_⟩
      · intro _; rw [← heq, List.take_length]
      · intro _; simp [heq]
      · intro _; rfl

theorem exactMatch_mem {remaining : Int} {size ch : Nat}
    (h : exactMatch remaining = some (size, ch)) :
    size ∈ exactCandidates ∧ (ch = 3 ∧ remaining = (size ^ 3 * 3 : Nat) ∨
      ch = 4 ∧ remaining = (size ^ 3 * 4 : Nat)) := by
  obtain ⟨s, hs, hf⟩ := List.exists_of_findSome?_eq_some h
  by_cases h3 : remaining = (s ^ 3 * 3 : Nat)
  · rw [if_pos h3] at hf
    simp only [Option.some.injEq, Prod.mk.injEq] at hf
    obtain ⟨rfl, rfl⟩ := hf
    exact ⟨hs, .inl ⟨rfl, h3⟩⟩
  · rw [if_neg h3] at hf
    by_cases h4 : remaining = (s ^ 3 * 4 : Nat)
    · rw [if_pos h4] at hf
      simp only [Option.some.injEq, Prod.mk.injEq] at hf
      obtain ⟨rfl, rfl⟩ := hf
      exact ⟨hs, .inr ⟨rfl, h4⟩⟩
    · rw [if_neg h4] at hf
      exact absurd hf (by simp)

theorem tolMatch_mem {remaining : Int} {size ch : Nat}
    (h : tolMatch remaining = some (size, ch)) :
    size ∈ tolCandidates ∧ ch ∈ ([3, 4] : List Nat) ∧
      (remaining - (size ^ 3 * ch : Nat)).natAbs ≤ 4 := by
  obtain ⟨s, hs, hf⟩ := List.exists_of_findSome?_eq_some h
  obtain ⟨c, hc, hg⟩ := List.exists_of_findSome?_eq_some hf
  by_cases habs : (remaining - (s ^ 3 * c : Nat)).natAbs ≤ 4
  · rw [if_pos habs] at hg
    simp only [Option.some.injEq, Prod.mk.injEq] at hg
    obtain ⟨rfl, rfl⟩ := hg
    exact ⟨hs, hc, habs⟩
  · rw [if_neg habs] at hg
    exact absurd hg (by simp)

/-! ## Claims -/

/-- Claim C6: for every decoded entry list and `expected_count = size³`,
the repair step returns exactly `expected_count` entries; a longer
input is truncated to its first `expected_count` entries unchanged; a
shorter input is padded so that each appended slot at linear index
`idx` equals `(r/(size−1), g/(size−1), b/(size−1))` with
`b = idx / size²`, `g = (idx / size) % size`, `r = idx % size`; an
input of exactly `expected_count` entries is returned unchanged. -/
theorem C6_repair_truncate_pad (entries : List Triple) (size : Nat) :
    (repair entries size).length = size ^ 3 ∧
    (size ^ 3 ≤ entries.length → repair entries size = entries.take (size ^ 3)) ∧
    (entries.length ≤ size ^ 3 →
      repair entries size =
        entries ++ (List.range (size ^ 3 - entries.length)).map (fun j =>
          ((((entries.length + j) % size : Nat) : ℚ) / ((size - 1 : Nat) : ℚ),
           (((entries.length + j) / size % size : Nat) : ℚ) / ((size - 1 : Nat) : ℚ),
           (((entries.length + j) / (size * size) : Nat) : ℚ) / ((size - 1 : Nat) : ℚ)))) ∧
    (entries.length = size ^ 3 → repair entries size = entries) := by
  have h := repair_spec entries size
  simpa only [identityAt] using h

theorem C6_repair_truncate_pad_witness :
    (1 : Nat) ^ 3 ≤ (List.replicate 2 (((0 : ℚ), (0 : ℚ), (0 : ℚ)) : Triple)).length ∧
      repair (List.replicate 2 (((0 : ℚ), (0 : ℚ), (0 : ℚ)) : Triple)) 1 =
        (List.replicate 2 (((0 : ℚ), (0 : ℚ), (0 : ℚ)) : Triple)).take (1 ^ 3) :=
  ⟨by decide, (C6_repair_truncate_pad _ 1).2.1 (by decide)⟩

/-- Claim C8: the raw-volume path fails iff the total byte length is
not divisible by the 4-byte texel stride or `length/4` is not a perfect
cube; otherwise it returns the cube size whose cube equals the texel
count (with the `rgba` order and the whole buffer as payload). -/
theorem C8_read_raw_rgba_iff (data : List Nat) :
    ((∃ r, read_raw_rgba data = .ok r) ↔
      data.length % 4 = 0 ∧ ∃ s, s ^ 3 = data.length / 4) ∧
    (∀ s order payload, read_raw_rgba data = .ok (s, order, payload) →
      s ^ 3 = data.length / 4 ∧ order = ChanOrder.rgba ∧ payload = data) := by
  unfold read_raw_rgba
  by_cases h4 : data.length % 4 ≠ 0
  · rw [if_pos h4]
    constructor
    · constructor
      · rintro ⟨r, hr⟩; exact absurd hr (by simp)
      · rintro ⟨h, -⟩; exact absurd h h4
    · intro s order payload h; exact absurd h (by simp)
  · rw [if_neg h4]
    push_neg at h4
    by_cases hc : natCbrt (data.length / 4) * natCbrt (data.length / 4) *
        natCbrt (data.length / 4) ≠ data.length / 4
    · rw [if_pos hc]
      constructor
      · constructor
        · rintro ⟨r, hr⟩; exact absurd hr (by simp)
        · rintro ⟨-, s, hs⟩
          exfalso
          apply hc
          have heq : natCbrt (data.length / 4) = s := by rw [← hs, natCbrt_cube]
          rw [heq, show s * s * s = s ^ 3 from by ring, hs]
      · intro s order payload h; exact absurd h (by simp)
    · rw [if_neg hc]
      push_neg at hc
      constructor
      · constructor
        · intro _
          refine ⟨h4, natCbrt (data.length / 4), ?_⟩
          rw [show natCbrt (data.length / 4) ^ 3 =
            natCbrt (data.length / 4) * natCbrt (data.length / 4) * natCbrt (data.length / 4)
            from by ring]
          exact hc
        · intro _; exact ⟨_, rfl⟩
      · intro s order payload h
        simp only [Except.ok.injEq, Prod.mk.injEq] at h
        obtain ⟨hs, horder, hpayload⟩ := h
        refine ⟨?_, horder.symm, hpayload.symm⟩
        rw [← hs, show natCbrt (data.length / 4) ^ 3 =
          natCbrt (data.length / 4) * natCbrt (data.length / 4) * natCbrt (data.length / 4)
          from by ring]
        exact hc

theorem C8_read_raw_rgba_iff_witness :
    ∃ r, read_raw_rgba (List.replicate 32 0) = .ok r :=
  (C8_read_raw_rgba_iff (List.replicate 32 0)).1.mpr
    ⟨by simp, 2, by simp⟩

/-- Claim C9 (implicit): if an input file's first 20 bytes are ASCII
and its first 500 bytes, decoded as ASCII, contain `"LUT_3D_SIZE"` or
`"TITLE"`, `convert_bin_to_cube` copies the file byte-for-byte to the
output and reports success, performing no header parsing, decoding,
repair or normalization on it. -/
theorem C9_ascii_copy_through (data : List Nat)
    (h20 : (data.take 20).all (fun byte => byte < 128) = true)
    (hmark : (containsSeq lutSizeMarker ((data.take 500).filter (fun byte => byte < 128)) ||
      containsSeq titleMarker ((data.take 500).filter (fun byte => byte < 128))) = true) :
    convert_bin_to_cube data = .copied data := by
  have hc : asciiCubeCopy data = true := by
    unfold asciiCubeCopy
    rw [h20, hmark]
    rfl
  unfold convert_bin_to_cube
  rw [if_pos hc]

theorem C9_ascii_copy_through_witness :
    ((titleMarker.take 20).all (fun byte => byte < 128) = true) ∧
      convert_bin_to_cube titleMarker = .copied titleMarker :=
  ⟨by decide, C9_ascii_copy_through titleMarker (by decide) (by decide)⟩

/-- Modelled from the spec's serialization grammar (§4.6): the four
claimed header lines `TITLE "<title>"`, `LUT_3D_SIZE <size>`,
`DOMAIN_MIN 0 0 0`, `DOMAIN_MAX 1 1 1` followed immediately by the
data lines, with no other lines. -/
def specCubeLines (title : String) (size : Nat) (entries : List Triple) : List String :=
  ("TITLE \"" ++ title ++ "\"") ::
  ("LUT_3D_SIZE " ++ toString size) ::
  "DOMAIN_MIN 0 0 0" ::
  "DOMAIN_MAX 1 1 1" ::
  entries.map fmtLine

/-- Claim C5 counterexample: `write_cube_file` does not produce the
claimed serialization — its third header line is
`DOMAIN_MIN 0.0 0.0 0.0` and a blank line precedes the data lines. -/
theorem C5_counterexample_write_cube_file :
    write_cube_file_lines [(((0 : ℚ), (0 : ℚ), (0 : ℚ)) : Triple)] 1 "t" ≠
        specCubeLines "t" 1 [(((0 : ℚ), (0 : ℚ), (0 : ℚ)) : Triple)] ∧
      write_cube_file_lines [(((0 : ℚ), (0 : ℚ), (0 : ℚ)) : Triple)] 1 "t" =
        ["TITLE \"t\"", "LUT_3D_SIZE 1", "DOMAIN_MIN 0.0 0.0 0.0", "DOMAIN_MAX 1.0 1.0 1.0",
          "", "0.000000 0.000000 0.000000"] := by
  constructor
  · decide
  · decide

/-- Claim C5 amended: `convert_file` serializes exactly the claimed
four header lines followed by `size³` data lines; `write_cube_file`
instead writes `DOMAIN_MIN 0.0 0.0 0.0`, `DOMAIN_MAX 1.0 1.0 1.0` and
one blank line before its data lines; in both, every data line is the
three values formatted with exactly 6 fractional digits. -/
theorem C5_amended_serialization (title : String) (size : Nat) (entries : List Triple)
    (hlen : entries.length = size ^ 3) :
    convert_file_lines title size entries = specCubeLines title size entries ∧
    (convert_file_lines title size entries).length = 4 + size ^ 3 ∧
    write_cube_file_lines entries size title =
      ("TITLE \"" ++ title ++ "\"") :: ("LUT_3D_SIZE " ++ toString size) ::
        "DOMAIN_MIN 0.0 0.0 0.0" :: "DOMAIN_MAX 1.0 1.0 1.0" :: "" :: entries.map fmtLine ∧
    (write_cube_file_lines entries size title).length = 5 + size ^ 3 ∧
    (∀ t ∈ entries, fmtLine t = fmt6 t.1 ++ " " ++ fmt6 t.2.1 ++ " " ++ fmt6 t.2.2) ∧
    (∀ q : ℚ, ∃ n : Nat,
      fmt6 q = toString (n / 1000000) ++ "." ++ fracDigits (n % 1000000) ∧
        (fracDigits (n % 1000000)).length = 6) := by
  refine ⟨rfl, ?_, rfl, ?_, ?_, ?_⟩
  · simp [convert_file_lines, hlen]
    omega
  · simp [write_cube_file_lines, hlen]
    omega
  · intro t _; rfl
  · intro q
    refine ⟨round6 q, rfl, ?_⟩
    rfl

theorem C5_amended_serialization_witness :
    ([(((0 : ℚ), (0 : ℚ), (0 : ℚ)) : Triple)].length = 1 ^ 3) ∧
      convert_file_lines "t" 1 [(((0 : ℚ), (0 : ℚ), (0 : ℚ)) : Triple)] =
        specCubeLines "t" 1 [(((0 : ℚ), (0 : ℚ), (0 : ℚ)) : Triple)] :=
  ⟨by decide, (C5_amended_serialization "t" 1 _ (by decide)).1⟩

theorem flatMap_const_length {α β : Type} (f : α → List β) (k : Nat)
    (hf : ∀ a, (f a).length = k) :
    ∀ l : List α, (l.flatMap f).length = l.length * k := by
  intro l
  induction l with
  | nil => simp
  | cons a l ih =>
    simp only [List.flatMap_cons, List.length_append, List.length_cons, ih, hf]
    ring

theorem flatMap_const_getElem? {α β : Type} (f : α → List β) (k : Nat)
    (hf : ∀ a, (f a).length = k) :
    ∀ (l : List α) (i j : Nat), j < k →
      (l.flatMap f)[i * k + j]? = l[i]?.bind fun a => (f a)[j]? := by
  intro l
  induction l with
  | nil => intro i j _; simp
  | cons a l ih =>
    intro i j hj
    rw [List.flatMap_cons]
    cases i with
    | zero =>
      rw [Nat.zero_mul, Nat.zero_add,
        List.getElem?_append_left (by rw [hf a]; exact hj)]
      simp
    | succ i =>
      have hge : (f a).length ≤ (i + 1) * k + j := by
        rw [hf a]
        calc k ≤ (i + 1) * k := Nat.le_mul_of_pos_left k (Nat.succ_pos i)
        _ ≤ (i + 1) * k + j := Nat.le_add_right _ _
      rw [List.getElem?_append_right hge, hf a,
        show (i + 1) * k + j - k = i * k + j from by rw [Nat.succ_mul]; omega,
        ih i j hj]
      simp

/-- Indexing `iter_values` at the canonical linear position of
coordinates `(r, g, b)` yields the triple read at the order-dependent
storage index, three consecutive bytes at a time. -/
theorem iter_values_getElem (order : ChanOrder) (size : Nat) (payload : List Nat)
    {r g b : Nat} (hr : r < size) (hg : g < size) (hb : b < size) :
    (iter_values size payload order)[(b * size + g) * size + r]? =
      some (tripleAt payload (storageIdx order size r g b)) := by
  have hinner : ∀ bb gg : Nat,
      ((List.range size).map fun rr => tripleAt payload (storageIdx order size rr gg bb)).length
        = size := by
    intro bb gg; simp
  have houter : ∀ bb : Nat,
      (((List.range size).flatMap fun gg =>
        (List.range size).map fun rr => tripleAt payload (storageIdx order size rr gg bb)).length)
        = size * size := by
    intro bb
    rw [flatMap_const_length _ size (hinner bb), List.length_range]
  have hidx : (b * size + g) * size + r = b * (size * size) + (g * size + r) := by ring
  have hjlt : g * size + r < size * size := by
    calc g * size + r < g * size + size := by omega
    _ = (g + 1) * size := by ring
    _ ≤ size * size := Nat.mul_le_mul_right size hg
  unfold iter_values
  rw [hidx, flatMap_const_getElem? _ (size * size) houter _ b (g * size + r) hjlt,
    List.getElem?_range hb, Option.some_bind,
    flatMap_const_getElem? _ size (hinner b) _ g r hr,
    List.getElem?_range hg, Option.some_bind, List.getElem?_map,
    List.getElem?_range hr, Option.map_some']

/-- Claim C4 counterexample: for the single-texel payload
`[0, 128, 255]` in `bgr` order, the decoder reads red from byte
position 0 and blue from byte position 2 — the decoded triple is
`(0/255, 128/255, 255/255)`, not the claimed `(255/255, 128/255, 0/255)`
with red and blue byte positions swapped. -/
theorem C4_counterexample_bgr_byte_positions :
    iter_values 1 [0, 128, 255] ChanOrder.bgr =
        [(((0 : ℚ) / 255, (128 : ℚ) / 255, (255 : ℚ) / 255) : Triple)] ∧
      iter_values 1 [0, 128, 255] ChanOrder.bgr ≠
        [(((255 : ℚ) / 255, (128 : ℚ) / 255, (0 : ℚ) / 255) : Triple)] := by
  constructor
  · norm_num [iter_values, tripleAt, storageIdx, List.range_succ, List.range_zero, List.getD]
  · norm_num [iter_values, tripleAt, storageIdx, List.range_succ, List.range_zero, List.getD]

/-- Claim C4 amended: for every byte-encoded payload each decoded
triple is `(payload[idx], payload[idx+1], payload[idx+2]) / 255` with
the three bytes always read in that consecutive order; `channel_order`
instead selects the texel index formula — `rgb`:
`idx = (g·N + b·N²)·3 + r·3`; `bgr`: `idx = (b + g·N)·3 + r·N²·3`;
`rgba`: 4-byte stride `idx = (g·N + b·N²)·4 + r·4`, skipping the 4th
(alpha) byte. -/
theorem C4_amended_consecutive_bytes (order : ChanOrder) (size : Nat) (payload : List Nat)
    {r g b : Nat} (hr : r < size) (hg : g < size) (hb : b < size) :
    (iter_values size payload order)[(b * size + g) * size + r]? =
      some (((payload.getD (storageIdx order size r g b) 0 : ℚ) / 255,
        (payload.getD (storageIdx order size r g b + 1) 0 : ℚ) / 255,
        (payload.getD (storageIdx order size r g b + 2) 0 : ℚ) / 255)) := by
  rw [iter_values_getElem order size payload hr hg hb]
  rfl

theorem C4_amended_consecutive_bytes_witness :
    ((1 : Nat) < 2 ∧ (0 : Nat) < 2) ∧
      (iter_values 2 (List.range 24) ChanOrder.bgr)[(0 * 2 + 0) * 2 + 1]? =
        some ((((List.range 24).getD (storageIdx ChanOrder.bgr 2 1 0 0) 0 : ℚ) / 255,
          ((List.range 24).getD (storageIdx ChanOrder.bgr 2 1 0 0 + 1) 0 : ℚ) / 255,
          ((List.range 24).getD (storageIdx ChanOrder.bgr 2 1 0 0 + 2) 0 : ℚ) / 255)) :=
  ⟨⟨by decide, by decide⟩,
    C4_amended_consecutive_bytes ChanOrder.bgr 2 (List.range 24)
      (by decide) (by decide) (by decide)⟩

/-- Modelled from the spec's words for the claimed tolerance tier
(§4.2 step 3): repeat the exact-candidate test over the same full
ranked list `{32, 33, 17, 16, 21, 25, 20}`, for both 3 and 4 channels,
accepting an absolute byte-count discrepancy of up to 4; the first size
within tolerance wins. -/
def specTolMatchFullList (remaining : Int) : Option (Nat × Nat) :=
  exactCandidates.findSome? fun size =>
    ([3, 4] : List Nat).findSome? fun ch =>
      if (remaining - (size ^ 3 * ch : Nat)).natAbs ≤ 4 then some (size, ch) else none

/-- Claim C3 counterexample: at `remaining = 107813` (within 2 bytes of
`33³·3 = 107811`) no exact candidate matches and the claimed full-list
tolerance tier would return `(33, 3)`, but the code's tolerance tier
(which iterates only `[20, 17, 21, 25]`) returns nothing, so inference
falls through to the bucketed fallback and returns `(32, 3)` for a
107989-byte file with data offset 176. -/
theorem C3_counterexample_tolerance_list :
    exactMatch 107813 = none ∧
      tolMatch 107813 = none ∧
      specTolMatchFullList 107813 = some (33, 3) ∧
      inferLayout 107989 176 = (32, 3) := by
  refine ⟨by decide, by decide, by decide, by decide⟩

/-- Claim C3 amended: when no exact candidate matches, the tolerance
tier tests only the sizes `[20, 17, 21, 25]` (not the full ranked
list), for channels 3 then 4, accepting an absolute discrepancy of up
to 4 bytes; a tolerance match is returned by the inference as is. -/
theorem C3_amended_tolerance_tier (file_size data_offset size ch : Nat)
    (hex : exactMatch ((file_size : Int) - (data_offset : Int)) = none)
    (htol : tolMatch ((file_size : Int) - (data_offset : Int)) = some (size, ch)) :
    inferLayout file_size data_offset = (size, ch) ∧
      size ∈ tolCandidates ∧ ch ∈ ([3, 4] : List Nat) ∧
      (((file_size : Int) - (data_offset : Int)) - (size ^ 3 * ch : Nat)).natAbs ≤ 4 := by
  obtain ⟨hmem, hchmem, habs⟩ := tolMatch_mem htol
  refine ⟨?_, hmem, hchmem, habs⟩
  unfold inferLayout
  rw [hex, htol]
  rfl

theorem C3_amended_tolerance_tier_witness :
    (exactMatch ((24178 : Nat) - (176 : Nat) : Int) = none ∧
        tolMatch ((24178 : Nat) - (176 : Nat) : Int) = some (20, 3)) ∧
      inferLayout 24178 176 = (20, 3) :=
  ⟨⟨by decide, by decide⟩,
    (C3_amended_tolerance_tier 24178 176 20 3 (by decide) (by decide)).1⟩

/-- Claim C7 counterexample: the 8-byte buffer consisting of the magic
signature alone begins with the magic, yet `parse_ms_lut_header` raises
`struct.error` on it (Python: `struct.unpack('<I', data[8:12])` with an
empty slice) instead of returning a layout. -/
theorem C7_counterexample_short_magic_buffer :
    msMagic.isPrefixOf msMagic = true ∧
      parse_ms_lut_header msMagic =
        .error "struct.error: unpack requires a buffer of 4 bytes" := by
  exact ⟨by decide, rfl⟩

/-- Claim C7 amended: `parse_ms_lut_header` returns a layout for every
buffer that begins with the magic signature and is at least 16 bytes
long (a shorter magic-bearing buffer raises `struct.error`); when
neither the exact tier nor the tolerance tier matches the remainder,
the cube size comes from the file-size buckets — per `bucketSize`:
`≤14900→17`, `≤17000→16`, `≤28000→21`, `≤100000→32`, `≤135000→32`,
else `33` — with channel count 3. -/
theorem C7_amended_totality (data : List Nat)
    (hmagic : msMagic.isPrefixOf data = true) (hlen : 16 ≤ data.length) :
    (∃ h : MsHeader, parse_ms_lut_header data = .ok (some h) ∧
      h.file_size = data.length ∧
      (h.lut_size, h.channels) = inferLayout data.length h.data_offset) ∧
    (∀ fs doff : Nat, exactMatch ((fs : Int) - (doff : Int)) = none →
      tolMatch ((fs : Int) - (doff : Int)) = none →
      inferLayout fs doff = (bucketSize fs, 3)) := by
  constructor
  · have hparse : parse_ms_lut_header data = .ok (some
        { version := u32 data 8
          lut_size := (inferLayout data.length (parsedDataOffset data)).1
          file_size := data.length
          data_offset := parsedDataOffset data
          channels := (inferLayout data.length (parsedDataOffset data)).2 }) := by
      unfold parse_ms_lut_header
      rw [if_pos hmagic, if_neg (by omega : ¬ data.length < 16)]
    exact ⟨_, hparse, rfl, rfl⟩
  · intro fs doff hex htol
    unfold inferLayout
    rw [hex, htol]
    rfl

theorem C7_amended_totality_witness :
    ∃ h : MsHeader, parse_ms_lut_header (msMagic ++ List.replicate 8 0) = .ok (some h) ∧
      h.file_size = (msMagic ++ List.replicate 8 0).length ∧
      (h.lut_size, h.channels) =
        inferLayout (msMagic ++ List.replicate 8 0).length h.data_offset :=
  (C7_amended_totality (msMagic ++ List.replicate 8 0) (by decide) (by decide)).1

/-- Claim C10 (implicit): every cube size produced by header inference
(`inferLayout`, any tier) or by the headerless raw-size guesses
(`rawSizeGuess`) is at least 16, so the identity-padding division by
`size − 1` never divides by zero, and every padded component
`r/(size−1)`, `g/(size−1)`, `b/(size−1)` lies in `[0, 1]`. -/
theorem C10_inferred_sizes_ge_16 :
    (∀ fs doff : Nat, 16 ≤ (inferLayout fs doff).1) ∧
    (∀ fs : Nat, 16 ≤ rawSizeGuess fs) ∧
    (∀ size idx : Nat, 16 ≤ size → idx < size ^ 3 →
      ((0 : ℚ) < ((size - 1 : Nat) : ℚ)) ∧
      (0 ≤ (identityAt size idx).1 ∧ (identityAt size idx).1 ≤ 1) ∧
      (0 ≤ (identityAt size idx).2.1 ∧ (identityAt size idx).2.1 ≤ 1) ∧
      (0 ≤ (identityAt size idx).2.2 ∧ (identityAt size idx).2.2 ≤ 1)) := by
  refine ⟨?_, ?_, ?_⟩
  · intro fs doff
    unfold inferLayout
    cases hx : exactMatch ((fs : Int) - (doff : Int)) with
    | some p =>
      obtain ⟨s, c⟩ := p
      obtain ⟨hmem, -⟩ := exactMatch_mem hx
      simp only [exactCandidates] at hmem
      rw [Option.or_some, Option.getD_some]
      fin_cases hmem <;> norm_num
    | none =>
      rw [Option.none_or]
      cases ht : tolMatch ((fs : Int) - (doff : Int)) with
      | some p =>
        obtain ⟨s, c⟩ := p
        obtain ⟨hmem, -⟩ := tolMatch_mem ht
        simp only [tolCandidates] at hmem
        rw [Option.getD_some]
        fin_cases hmem <;> norm_num
      | none =>
        rw [Option.getD_none]
        unfold bucketSize
        split_ifs <;> omega
  · intro fs
    unfold rawSizeGuess
    split_ifs <;> omega
  · intro size idx h16 hidx
    have hszpos : (0 : ℚ) < ((size - 1 : Nat) : ℚ) := by
      rw [show ((0 : ℚ) = ((0 : Nat) : ℚ)) from by norm_num]
      rw [Nat.cast_lt]
      omega
    have hcomp : ∀ m : Nat, m ≤ size - 1 →
        0 ≤ ((m : ℚ) / ((size - 1 : Nat) : ℚ)) ∧ ((m : ℚ) / ((size - 1 : Nat) : ℚ)) ≤ 1 := by
      intro m hm
      constructor
      · exact div_nonneg (by positivity) (le_of_lt hszpos)
      · rw [div_le_one hszpos, Nat.cast_le]
        exact hm
    refine ⟨hszpos, ?_, ?_, ?_⟩
    · exact hcomp (idx % size) (by have := Nat.mod_lt idx (show 0 < size by omega); omega)
    · exact hcomp (idx / size % size) (by have := Nat.mod_lt (idx / size) (show 0 < size by omega); omega)
    · refine hcomp (idx / (size * size)) ?_
      have hlt : idx / (size * size) < size := by
        rw [Nat.div_lt_iff_lt_mul (by positivity : 0 < size * size)]
        calc idx < size ^ 3 := hidx
        _ = size * (size * size) := by ring
        _ ≤ size * (size * size) := le_refl _
      omega

theorem C10_inferred_sizes_ge_16_witness :
    16 ≤ (inferLayout 0 0).1 ∧ (0 : ℚ) ≤ (identityAt 16 0).1 :=
  ⟨C10_inferred_sizes_ge_16.1 0 0,
    ((C10_inferred_sizes_ge_16.2.2 16 0 (by norm_num) (by norm_num)).2.1).1⟩

theorem containsSeq_cons_replicate_zero {b0 : Nat} {rest : List Nat} (hb0 : b0 ≠ 0) :
    ∀ n : Nat, containsSeq (b0 :: rest) (List.replicate n 0) = false := by
  intro n
  induction n with
  | zero => rfl
  | succ n ih =>
    rw [List.replicate_succ, containsSeq, ih]
    simp [List.isPrefixOf_cons₂, hb0]

theorem asciiCubeCopy_replicate_zero (n : Nat) :
    asciiCubeCopy (List.replicate n 0) = false := by
  unfold asciiCubeCopy
  simp only [List.take_replicate]
  rw [List.filter_replicate_of_pos (by norm_num)]
  simp only [lutSizeMarker, titleMarker]
  rw [containsSeq_cons_replicate_zero (by norm_num),
    containsSeq_cons_replicate_zero (by norm_num)]
  simp

theorem ebGo_length (data : List Nat) (ch : Nat) (hch : 0 < ch) (hdata : 3 ≤ data.length) :
    ∀ (fuel i : Nat), (ebGo data ch fuel i).length =
      min fuel ((data.length - 3) / ch + 1 - i) := by
  intro fuel
  induction fuel with
  | zero => intro i; simp [ebGo]
  | succ fuel ih =>
    intro i
    rw [ebGo]
    by_cases hcond : i * ch + 3 ≤ data.length
    · rw [if_pos hcond]
      have hi : i ≤ (data.length - 3) / ch := by
        rw [Nat.le_div_iff_mul_le hch]
        omega
      rw [List.length_cons, ih (i + 1)]
      omega
    · rw [if_neg hcond]
      have hi : (data.length - 3) / ch < i := by
        by_contra hle
        push_neg at hle
        rw [Nat.le_div_iff_mul_le hch] at hle
        omega
      rw [List.length_nil]
      omega

/-- The 98304 zero bytes of claim C1's failing input: a 3-channel byte
payload of exactly `32³·3` bytes with no recognizable header. -/
def zeros98304 : List Nat := List.replicate 98304 0

/-- Claim C1 (code bug witness): on a headerless 98304-byte payload,
`convert_bin_to_cube` picks `lut_size = 32` from the raw-size guess but
channel count 4 (because `98304 % 4 == 0`, contradicting the code's own
`# 32^3 * 3 (RGB)` comment on that branch), extracts only 24576 of the
32768 required entries, fails the 90% check, and returns failure; the
other converter's raw path also fails because `98304/4 = 24576` is not
a perfect cube.  The claimed successful `(32, 3)` tier-2 inference
never happens. -/
theorem C1_headerless_98304_fails :
    convert_bin_to_cube zeros98304 = .failed ∧
      rawSizeGuess 98304 = 32 ∧ (98304 % 4 = 0) ∧
      (extract_byte_lut zeros98304 32 4).length = 24576 ∧
      read_raw_rgba zeros98304 =
        .error "byte length is not a perfect cube of RGBA texels" := by
  have hl : zeros98304.length = 98304 := List.length_replicate 98304 0
  have hm : msMagic.isPrefixOf zeros98304 = false := by decide
  have hac : asciiCubeCopy zeros98304 = false := by
    show asciiCubeCopy (List.replicate 98304 0) = false
    exact asciiCubeCopy_replicate_zero 98304
  have hparse : parse_ms_lut_header zeros98304 = .ok none := by
    unfold parse_ms_lut_header
    rw [if_neg (show ¬ msMagic.isPrefixOf zeros98304 = true from by
      rw [hm]; exact Bool.false_ne_true)]
  have hext : (extract_byte_lut zeros98304 32 4).length = 24576 := by
    unfold extract_byte_lut
    rw [ebGo_length zeros98304 4 (by norm_num) (by rw [hl]; norm_num)]
    rw [hl]
    decide
  refine ⟨?_, by decide, by norm_num, hext, ?_⟩
  · unfold convert_bin_to_cube
    rw [if_neg (show ¬ asciiCubeCopy zeros98304 = true from by
      rw [hac]; exact Bool.false_ne_true), hparse]
    show finishOppo (rawSizeGuess zeros98304.length)
      (extract_byte_lut zeros98304 (rawSizeGuess zeros98304.length)
        (if zeros98304.length % 4 ≠ 0 then 3 else 4)) = OppoResult.failed
    rw [hl]
    rw [show rawSizeGuess 98304 = 32 from by decide,
      if_neg (by norm_num : ¬ (98304 : Nat) % 4 ≠ 0)]
    unfold finishOppo
    rw [hext, if_pos (Or.inr (by norm_num))]
  · unfold read_raw_rgba
    rw [hl]
    rw [if_neg (by norm_num : ¬ (98304 : Nat) % 4 ≠ 0)]
    rw [show (98304 : Nat) / 4 = 24576 from by norm_num,
      show natCbrt 24576 = 29 from by decide,
      if_pos (by norm_num : (29 : Nat) * 29 * 29 ≠ 24576)]

/-- Claim C2's concrete 49-byte input: a valid magic, declared cube
size 1, axis offset 0 (axis table in bounds) and declared payload
offset 1000 — far past end-of-file — with total length 49, which is
not divisible by 4. -/
def c2buf : List Nat :=
  msMagic ++ [0, 0, 0, 0] ++ [1, 0, 0, 0] ++ List.replicate 24 0 ++ [232, 3, 0, 0] ++
    [0, 0, 0, 0] ++ [0]

/-- Claim C2 counterexample: on `c2buf` the Header Parser does raise
`payload truncated`, but the overall conversion of the file does NOT
succeed — the fallback is the raw-RGBA path, which raises because 49 is
not divisible by 4; `convert_file` has no remainder-length inference. -/
theorem C2_counterexample_no_recovery :
    read_ms_lut c2buf = .error "payload truncated" ∧
      convert_file_source c2buf =
        .error "byte length not divisible by 4 for RGBA data" := by
  exact ⟨rfl, rfl⟩

/-- Claim C2 amended: for every buffer whose parsed header passes the
magic/length and axis-table checks but declares a payload offset with
`payload_offset + size³·3` past the buffer end, `read_ms_lut` raises
`payload truncated`; `convert_file` then falls back to the raw-RGBA
path (`read_raw_rgba`) — the conversion succeeds only when that path
does (total length divisible by 4 and a perfect-cube texel count), not
in general, and no remainder-length inference takes place. -/
theorem C2_amended_truncated_payload (data : List Nat)
    (hlen : 48 ≤ data.length)
    (hmagic : msMagic.isPrefixOf data = true)
    (haxis : u32 data 32 + u32 data 12 * 4 ≤ data.length)
    (htrunc : data.length < u32 data 40 + u32 data 12 * u32 data 12 * u32 data 12 * 3) :
    read_ms_lut data = .error "payload truncated" ∧
      convert_file_source data = read_raw_rgba data := by
  have h1 : read_ms_lut data = .error "payload truncated" := by
    unfold read_ms_lut
    rw [if_neg (by push_neg; exact ⟨by omega, by simp [hmagic]⟩),
      if_neg (by omega), if_pos htrunc]
  refine ⟨h1, ?_⟩
  unfold convert_file_source
  rw [h1]

theorem C2_amended_truncated_payload_witness :
    read_ms_lut c2buf = .error "payload truncated" ∧
      convert_file_source c2buf = read_raw_rgba c2buf :=
  C2_amended_truncated_payload c2buf (by decide) (by decide) (by decide) (by decide)

end FilmSims
